import Mathlib

/-!
# Task adapters of the job runner: `EthBool` and `Sleep`

A shallow embedding of `adapters/eth_bool.go` and `adapters/sleep.go`.

The adapters work on `models.RunResult`, read and write its JSON data through
`RunResult.Result` and `RunResult.WithResult`, read the wall clock through
`models.Time.DurationFromNow`, and hand a continuation to the Go scheduler with
`go`.  The `store/models` package is not part of the sources at hand, so the
value types and those helpers are modelled from the specification; each such
definition says so in its doc comment.  The two `Perform` functions, `boolean`
and the two word constants are transcribed from the sources.
-/

namespace Chainlink

/-! ## JSON values and the `gjson` view of them -/

/-- Modelled from the spec: the "semi-structured value (JSON-like tree)" held
by a RunResult (`models.JSON`, not in the sources).  A number keeps its
literal text. -/
inductive JSON where
  | null : JSON
  | bool (b : Bool) : JSON
  | number (lit : String) : JSON
  | string (s : String) : JSON
  | array (items : List JSON) : JSON
  | object (members : List (String × JSON)) : JSON

namespace gjson

/-- The `gjson.Type` enumeration (`Type` is reserved in Lean, hence `Typ`): the
JSON type of a looked-up value.  `Null` is the zero value, so a lookup that
finds nothing has type `Null`. -/
inductive Typ where
  | Null | False | Number | String | True | JSON
  deriving DecidableEq, Repr

/-- The part of `gjson.Result` the adapters use: the JSON type and, for a
string, its text. -/
structure Result where
  Typ : gjson.Typ
  Str : String
  deriving DecidableEq, Repr

/-- The zero `gjson.Result`, returned for a key that is absent. -/
def Result.zero : Result := ⟨gjson.Typ.Null, ""⟩

/-- The `gjson.Result` describing one JSON value. -/
def Result.ofJSON : Chainlink.JSON → Result
  | .null => ⟨gjson.Typ.Null, ""⟩
  | .bool false => ⟨gjson.Typ.False, ""⟩
  | .bool true => ⟨gjson.Typ.True, ""⟩
  | .number _ => ⟨gjson.Typ.Number, ""⟩
  | .string s => ⟨gjson.Typ.String, s⟩
  | .array _ => ⟨gjson.Typ.JSON, ""⟩
  | .object _ => ⟨gjson.Typ.JSON, ""⟩

end gjson

/-! ## Run results -/

/-- Modelled from the spec: the status vocabulary shared by job runs and task
runs (`models.RunStatus`, not in the sources). -/
inductive RunStatus where
  | InProgress | PendingSleep | PendingConnection | PendingConfirmations
  | Completed | Errored
  deriving DecidableEq, Repr

/-- Modelled from the spec: `models.RunResult` (not in the sources), the value
"carrying a step's output data, status, and optional error". -/
structure RunResult where
  Data : JSON
  Status : RunStatus
  ErrorMessage : Option String

/-- The members of a JSON object; any other JSON value has none. -/
def JSON.members : JSON → List (String × JSON)
  | .object ms => ms
  | _ => []

/-- The value stored under a key of a JSON object, `none` when the key is
absent (or the value is no object). -/
def JSON.get (j : JSON) (key : String) : Option JSON :=
  (j.members.find? (fun kv => kv.1 == key)).map Prod.snd

/-- Modelled from the spec: `RunResult.Result` (not in the sources) reads the
"result" of the run's data as a `gjson.Result`; an absent result is the zero
`gjson.Result`, whose type is `Null`. -/
def RunResult.Result (rr : RunResult) : gjson.Result :=
  match rr.Data.get "result" with
  | some v => gjson.Result.ofJSON v
  | none => gjson.Result.zero

/-- Modelled from the spec: `RunResult.WithResult` (not in the sources) sets
the "result" of the run's data to the given string, leaving every other member
of the data, the status and the error as they are. -/
def RunResult.WithResult (rr : RunResult) (val : String) : RunResult :=
  { rr with
    Data := .object (("result", .string val) ::
      rr.Data.members.filter (fun kv => !(kv.1 == "result"))) }

/-! ## `adapters/eth_bool.go` -/

/-- The constant `evmFalse` of `eth_bool.go`. -/
def evmFalse : String :=
  "0x0000000000000000000000000000000000000000000000000000000000000000"

/-- The constant `evmTrue` of `eth_bool.go`. -/
def evmTrue : String :=
  "0x0000000000000000000000000000000000000000000000000000000000000001"

/-- The function `boolean` of `eth_bool.go`: `False` and `Null` are false,
every other JSON type is true. -/
def boolean (t : gjson.Typ) : Bool :=
  match t with
  | gjson.Typ.False | gjson.Typ.Null => false
  | _ => true

/-- The method `EthBool.Perform` of `eth_bool.go`.  The adapter has no fields
and the store argument is unused, so the input is the only argument. -/
def EthBool.Perform (input : RunResult) : RunResult :=
  let r := input.Result
  if boolean r.Typ then
    input.WithResult evmTrue
  else
    input.WithResult evmFalse

/-! ## The reference encoding of an EVM word -/

/-- The lowercase hexadecimal digit of a number below sixteen. -/
def hexDigit (n : Nat) : Char :=
  "0123456789abcdef".toList.getD n '0'

/-- The bytes of a number as a big-endian word of the given width. -/
def bigEndianBytes (width n : Nat) : List Nat :=
  (List.range width).reverse.map (fun i => n / 256 ^ i % 256)

/-- A byte rendered as two lowercase hexadecimal digits. -/
def byteHex (b : Nat) : List Char :=
  [hexDigit (b / 16), hexDigit (b % 16)]

/-- The reference encoding: a number as a 32-byte big-endian word, each byte
as two lowercase hexadecimal digits, after "0x". -/
def encodeWord (n : Nat) : String :=
  String.mk ('0' :: 'x' :: (bigEndianBytes 32 n).flatMap byteHex)

/-- The value of a lowercase hexadecimal digit. -/
def hexValue (c : Char) : Option Nat :=
  if '0' ≤ c ∧ c ≤ '9' then some (c.toNat - '0'.toNat)
  else if 'a' ≤ c ∧ c ≤ 'f' then some (c.toNat - 'a'.toNat + 10)
  else none

/-- The big-endian unsigned integer written by a list of hexadecimal digits,
continuing from an accumulator. -/
def decodeDigits : List Char → Nat → Option Nat
  | [], acc => some acc
  | c :: cs, acc =>
    match hexValue c with
    | some v => decodeDigits cs (16 * acc + v)
    | none => none

/-- Decoding of a word: the 64 hexadecimal digits after "0x", read as a
big-endian unsigned integer. -/
def decodeWord (s : String) : Option Nat :=
  match s.toList with
  | '0' :: 'x' :: ds => if ds.length = 64 then decodeDigits ds 0 else none
  | _ => none

/-- The test for the pattern `0x[0-9a-f]{64}`. -/
def matchesEvmWord (s : String) : Bool :=
  match s.toList with
  | '0' :: 'x' :: ds => ds.length == 64 && ds.all (fun c => (hexValue c).isSome)
  | _ => false

/-! ## `adapters/sleep.go` -/

/-- A span of time in nanoseconds, Go's `time.Duration`. -/
abbrev Duration := Int

/-- Modelled from the spec: `models.Time` (not in the sources), a point of
wall-clock time, here in nanoseconds on the clock's own scale. -/
structure Time where
  nanos : Int
  deriving DecidableEq, Repr

/-- Modelled from the spec: `models.Time.DurationFromNow` (not in the
sources), the duration by which the time lies in the future of the current
time; zero or negative when it is now or past.  The current time is read from
the wall clock, which is passed in. -/
def Time.DurationFromNow (t : Time) (now : Time) : Duration :=
  t.nanos - now.nanos

/-- The adapter `Sleep` of `sleep.go`. -/
structure Sleep where
  Until : Time
  deriving DecidableEq, Repr

/-- Modelled from the spec: `store.RunRequest` (not in the sources); `Input` is
the one field `sleep.go` fills in. -/
structure RunRequest where
  Input : RunResult

/-- The channel operations of `sleep.go`: a receive from `str.Clock.After(d)`
and a send to `str.RunQueue`. -/
inductive Action where
  | clockAfter (d : Duration) : Action
  | sendRunQueue (req : RunRequest) : Action

/-- A goroutine started with `go`, as the sequence of its channel
operations. -/
abbrev Goroutine := List Action

/-- What a call of `Perform` does: the value it returns, the channel
operations the call itself performs before it returns, and the goroutines it
starts. -/
structure Outcome where
  result : RunResult
  blocking : List Action
  spawned : List Goroutine

/-- The method `Sleep.Perform` of `sleep.go`; `now` is the wall-clock time
read by `DurationFromNow`. -/
def Sleep.Perform (adapter : Sleep) (now : Time) (input : RunResult) : Outcome :=
  let duration := adapter.Until.DurationFromNow now
  if duration ≤ 0 then
    let input := { input with Status := RunStatus.Completed }
    { result := input, blocking := [], spawned := [] }
  else
    let input := { input with Status := RunStatus.PendingSleep }
    { result := input
      blocking := []
      spawned := [[Action.clockAfter duration, Action.sendRunQueue { Input := input }]] }

/-- Modelled from the spec: the Clock, "producing a one-shot notification
after a duration", and the RunQueue with room for the request.  The requests
a sequence of channel operations has sent once `elapsed` has passed on the
clock since it started: a clock receive uses up its duration, or blocks the
rest when less than that is left. -/
def Goroutine.sent : List Action → Duration → List RunRequest
  | [], _ => []
  | Action.clockAfter d :: rest, elapsed =>
    if d ≤ elapsed then Goroutine.sent rest (elapsed - max d 0) else []
  | Action.sendRunQueue req :: rest, elapsed => req :: Goroutine.sent rest elapsed

/-- The clock receives of a sequence of channel operations, in order. -/
def Goroutine.waits : List Action → List Duration
  | [] => []
  | Action.clockAfter d :: rest => d :: Goroutine.waits rest
  | Action.sendRunQueue _ :: rest => Goroutine.waits rest

/-- Everything on the RunQueue because of one call, once `elapsed` has passed
since the call: what the call sent itself and what its goroutines sent. -/
def Outcome.enqueued (o : Outcome) (elapsed : Duration) : List RunRequest :=
  Goroutine.sent o.blocking elapsed ++
    o.spawned.flatMap (fun g => Goroutine.sent g elapsed)

/-- The invariant of a RunResult: a non-nil error implies status Errored. -/
def RunResult.errorImpliesErrored (rr : RunResult) : Prop :=
  rr.ErrorMessage ≠ none → rr.Status = RunStatus.Errored

instance (rr : RunResult) : Decidable rr.errorImpliesErrored := by
  unfold RunResult.errorImpliesErrored
  exact inferInstance

/-- Resuming a step: `Sleep.Perform` applied `n` times in a row, each time to
the RunResult the previous call returned, with the clock held at `now`. -/
def Sleep.resume (adapter : Sleep) (now : Time) : Nat → RunResult → RunResult
  | 0, input => input
  | n + 1, input => Sleep.resume adapter now n (adapter.Perform now input).result

/-! ## Helper lemmas -/

theorem Result_WithResult (rr : RunResult) (val : String) :
    (rr.WithResult val).Result = ⟨gjson.Typ.String, val⟩ := by
  simp [RunResult.WithResult, RunResult.Result, JSON.get, JSON.members,
    gjson.Result.ofJSON]

theorem boolean_eq_true_iff (t : gjson.Typ) :
    boolean t = true ↔ (t ≠ gjson.Typ.False ∧ t ≠ gjson.Typ.Null) := by
  cases t <;> simp [boolean]

theorem boolean_eq_false_iff (t : gjson.Typ) :
    boolean t = false ↔ (t = gjson.Typ.False ∨ t = gjson.Typ.Null) := by
  cases t <;> simp [boolean]

theorem evmTrue_ne_evmFalse : evmTrue ≠ evmFalse := by decide

theorem Perform_Result_eq (input : RunResult) :
    (EthBool.Perform input).Result =
      ⟨gjson.Typ.String, if boolean input.Result.Typ then evmTrue else evmFalse⟩ := by
  unfold EthBool.Perform
  by_cases h : boolean input.Result.Typ = true
  · simp [h, Result_WithResult]
  · simp [h, Result_WithResult]

theorem Result_Typ_of_get (rr : RunResult) :
    rr.Result.Typ =
      match rr.Data.get "result" with
      | none => gjson.Typ.Null
      | some v => (gjson.Result.ofJSON v).Typ := by
  unfold RunResult.Result
  cases rr.Data.get "result" <;> rfl

theorem ofJSON_falsy_iff (v : JSON) :
    ((gjson.Result.ofJSON v).Typ = gjson.Typ.False ∨
      (gjson.Result.ofJSON v).Typ = gjson.Typ.Null) ↔
    (v = JSON.null ∨ v = JSON.bool false) := by
  cases v with
  | bool b => cases b <;> simp [gjson.Result.ofJSON]
  | _ => simp [gjson.Result.ofJSON]

/-- The reference encoding on words other than 0 and 1: the low byte comes
last, a carry moves one byte to the left, and the largest word is all `f`. -/
theorem encodeWord_samples :
    encodeWord 255 =
      "0x00000000000000000000000000000000000000000000000000000000000000ff" ∧
    encodeWord 256 =
      "0x0000000000000000000000000000000000000000000000000000000000000100" ∧
    encodeWord (2 ^ 256 - 1) =
      "0xffffffffffffffffffffffffffffffffffffffffffffffffffffffffffffffff" ∧
    decodeWord (encodeWord 43981) = some 43981 := by
  refine ⟨?_, ?_, ?_, ?_⟩ <;> decide

/-! ## `EthBool` -/

/-- C1: the result value written by `EthBool.Perform` is the true word exactly
when the JSON type of the input's result is neither `False` nor `Null`, and
the false word exactly when it is `False` or `Null`; the latter is the case
exactly when the result is absent from the data, is `null` or is `false`. -/
theorem EthBool_Perform_classifies (input : RunResult) :
    ((EthBool.Perform input).Result = ⟨gjson.Typ.String, evmTrue⟩ ↔
      (input.Result.Typ ≠ gjson.Typ.False ∧ input.Result.Typ ≠ gjson.Typ.Null)) ∧
    ((EthBool.Perform input).Result = ⟨gjson.Typ.String, evmFalse⟩ ↔
      (input.Result.Typ = gjson.Typ.False ∨ input.Result.Typ = gjson.Typ.Null)) ∧
    ((input.Result.Typ = gjson.Typ.False ∨ input.Result.Typ = gjson.Typ.Null) ↔
      (input.Data.get "result" = none ∨ input.Data.get "result" = some JSON.null ∨
        input.Data.get "result" = some (JSON.bool false))) := by
  refine ⟨?_, ?_, ?_⟩
  · rw [Perform_Result_eq, ← boolean_eq_true_iff]
    by_cases h : boolean input.Result.Typ = true
    · simp [h]
    · simp [h, evmTrue_ne_evmFalse.symm]
  · rw [Perform_Result_eq, ← boolean_eq_false_iff]
    by_cases h : boolean input.Result.Typ = true
    · simp [h, evmTrue_ne_evmFalse]
    · simp [h]
  · rw [Result_Typ_of_get]
    cases h : input.Data.get "result" with
    | none => simp
    | some v => simpa using ofJSON_falsy_iff v

/-- C2: the result value written by `EthBool.Perform` is a JSON string that is
one of the two literal words; it is 66 characters long and matches
`0x[0-9a-f]{64}`. -/
theorem EthBool_Perform_word (input : RunResult) :
    (EthBool.Perform input).Result.Typ = gjson.Typ.String ∧
    ((EthBool.Perform input).Result.Str =
        "0x0000000000000000000000000000000000000000000000000000000000000000" ∨
      (EthBool.Perform input).Result.Str =
        "0x0000000000000000000000000000000000000000000000000000000000000001") ∧
    (EthBool.Perform input).Result.Str.length = 66 ∧
    matchesEvmWord (EthBool.Perform input).Result.Str = true := by
  rw [Perform_Result_eq]
  cases boolean input.Result.Typ
  · exact ⟨rfl, Or.inl rfl, by decide, by decide⟩
  · exact ⟨rfl, Or.inr rfl, by decide, by decide⟩

/-- C3: `evmFalse` and `evmTrue` are the reference encodings of 0 and 1 (a
32-byte big-endian word in lowercase hexadecimal after "0x"), and decoding
their 64 hexadecimal digits gives 0 and 1. -/
theorem evm_words_encode_zero_one :
    evmFalse = encodeWord 0 ∧ evmTrue = encodeWord 1 ∧
    decodeWord evmFalse = some 0 ∧ decodeWord evmTrue = some 1 ∧
    (bigEndianBytes 32 0).length = 32 ∧ (bigEndianBytes 32 1).length = 32 := by
  refine ⟨?_, ?_, ?_, ?_, ?_, ?_⟩ <;> decide

/-- C10: encoding twice always gives the true word, because the first output
is a JSON string; the second application changes the result value exactly
when the input's result is `False` or `Null` (where encoding once gives the
false word), so `EthBool.Perform` is not idempotent. -/
theorem EthBool_Perform_twice (input : RunResult) :
    (EthBool.Perform input).Result.Typ = gjson.Typ.String ∧
    (EthBool.Perform (EthBool.Perform input)).Result = ⟨gjson.Typ.String, evmTrue⟩ ∧
    (EthBool.Perform input).Result.Str =
      (if boolean input.Result.Typ then evmTrue else evmFalse) ∧
    ((EthBool.Perform (EthBool.Perform input)).Result ≠ (EthBool.Perform input).Result ↔
      (input.Result.Typ = gjson.Typ.False ∨ input.Result.Typ = gjson.Typ.Null)) ∧
    ¬ (∀ rr : RunResult, EthBool.Perform (EthBool.Perform rr) = EthBool.Perform rr) := by
  have h2 : (EthBool.Perform (EthBool.Perform input)).Result =
      ⟨gjson.Typ.String, evmTrue⟩ := by
    rw [Perform_Result_eq (EthBool.Perform input), Perform_Result_eq input]
    simp [boolean]
  refine ⟨by rw [Perform_Result_eq], h2, by rw [Perform_Result_eq], ?_, ?_⟩
  · rw [h2, Perform_Result_eq, ← boolean_eq_false_iff]
    by_cases h : boolean input.Result.Typ = true
    · simp [h]
    · simp [h, evmTrue_ne_evmFalse]
  · intro hall
    have h := congrArg RunResult.Result
      (hall ⟨JSON.null, RunStatus.InProgress, none⟩)
    revert h
    decide

/-! ## `Sleep` -/

/-- C4: when the Until time is at or before the current time, `Sleep.Perform`
returns status Completed, performs no channel operation, starts no goroutine,
and nothing is ever on the RunQueue because of the call. -/
theorem Sleep_Perform_past (adapter : Sleep) (now : Time) (input : RunResult)
    (h : adapter.Until.DurationFromNow now ≤ 0) :
    (adapter.Perform now input).result.Status = RunStatus.Completed ∧
    (adapter.Perform now input).blocking = [] ∧
    (adapter.Perform now input).spawned = [] ∧
    ∀ elapsed : Duration, (adapter.Perform now input).enqueued elapsed = [] := by
  simp [Sleep.Perform, h, Outcome.enqueued, Goroutine.sent]

theorem Sleep_Perform_past_witness :
    (Sleep.mk ⟨10⟩).Until.DurationFromNow ⟨10⟩ ≤ 0 ∧
    ((Sleep.mk ⟨10⟩).Perform ⟨10⟩
        ⟨JSON.null, RunStatus.InProgress, none⟩).result.Status = RunStatus.Completed :=
  ⟨by decide,
    (Sleep_Perform_past (Sleep.mk ⟨10⟩) ⟨10⟩ ⟨JSON.null, RunStatus.InProgress, none⟩
      (by decide)).1⟩

/-- C5: when the Until time lies a duration `d > 0` in the future,
`Sleep.Perform` returns status PendingSleep having performed no channel
operation itself, and starts exactly one goroutine, which receives from the
clock once, for exactly `d`, and then sends one RunRequest: before `d` has
passed nothing is on the RunQueue, from then on exactly one request. -/
theorem Sleep_Perform_future (adapter : Sleep) (now : Time) (input : RunResult)
    (h : 0 < adapter.Until.DurationFromNow now) :
    (adapter.Perform now input).result.Status = RunStatus.PendingSleep ∧
    (adapter.Perform now input).blocking = [] ∧
    (∃ req : RunRequest, (adapter.Perform now input).spawned =
      [[Action.clockAfter (adapter.Until.DurationFromNow now), Action.sendRunQueue req]]) ∧
    (adapter.Perform now input).spawned.map Goroutine.waits =
      [[adapter.Until.DurationFromNow now]] ∧
    (∀ elapsed : Duration, elapsed < adapter.Until.DurationFromNow now →
      (adapter.Perform now input).enqueued elapsed = []) ∧
    (∀ elapsed : Duration, adapter.Until.DurationFromNow now ≤ elapsed →
      ((adapter.Perform now input).enqueued elapsed).length = 1) := by
  have hn : ¬ adapter.Until.DurationFromNow now ≤ 0 := not_le.mpr h
  refine ⟨?_, ?_, ?_, ?_, ?_, ?_⟩
  · simp [Sleep.Perform, hn]
  · simp [Sleep.Perform, hn]
  · exact ⟨{ Input := { input with Status := RunStatus.PendingSleep } },
      by simp [Sleep.Perform, hn]⟩
  · simp [Sleep.Perform, hn, Goroutine.waits]
  · intro elapsed he
    simp [Sleep.Perform, hn, Outcome.enqueued, Goroutine.sent, not_le.mpr he]
  · intro elapsed he
    simp [Sleep.Perform, hn, Outcome.enqueued, Goroutine.sent, he]

theorem Sleep_Perform_future_witness :
    0 < (Sleep.mk ⟨10⟩).Until.DurationFromNow ⟨3⟩ ∧
    ((Sleep.mk ⟨10⟩).Perform ⟨3⟩
        ⟨JSON.null, RunStatus.InProgress, none⟩).result.Status = RunStatus.PendingSleep :=
  ⟨by decide,
    (Sleep_Perform_future (Sleep.mk ⟨10⟩) ⟨3⟩ ⟨JSON.null, RunStatus.InProgress, none⟩
      (by decide)).1⟩

/-- C6, as stated, fails: an input that carries an error and has status
Errored satisfies the invariant, and `Sleep.Perform` returns it with status
Completed and the error still set. -/
theorem Sleep_Perform_invariant_counterexample :
    (RunResult.mk JSON.null RunStatus.Errored (some "boom")).errorImpliesErrored ∧
    ¬ ((Sleep.mk ⟨10⟩).Perform ⟨10⟩
        (RunResult.mk JSON.null RunStatus.Errored (some "boom"))).result.errorImpliesErrored := by
  decide

/-- C6, amended: the RunResult returned by `Sleep.Perform` satisfies the
invariant "a non-nil error implies status Errored" exactly when the input
carries no error. -/
theorem Sleep_Perform_invariant_iff (adapter : Sleep) (now : Time) (input : RunResult) :
    (adapter.Perform now input).result.errorImpliesErrored ↔ input.ErrorMessage = none := by
  unfold RunResult.errorImpliesErrored Sleep.Perform
  by_cases h : adapter.Until.DurationFromNow now ≤ 0
  · simp [h]
  · simp [h]

/-- C7: the RunResult returned by `Sleep.Perform` has the data and the error
of the input; it is the input with at most the status changed. -/
theorem Sleep_Perform_frame (adapter : Sleep) (now : Time) (input : RunResult) :
    (adapter.Perform now input).result.Data = input.Data ∧
    (adapter.Perform now input).result.ErrorMessage = input.ErrorMessage ∧
    (adapter.Perform now input).result =
      { input with Status := (adapter.Perform now input).result.Status } := by
  unfold Sleep.Perform
  by_cases h : adapter.Until.DurationFromNow now ≤ 0
  · simp [h]
  · simp [h]

/-- C8: with the current time held before Until, applying `Sleep.Perform` to
its own result any number of further times returns the RunResult that one
application returns, which has status PendingSleep and the data and error of
the input. -/
theorem Sleep_Perform_resume (adapter : Sleep) (now : Time) (input : RunResult)
    (h : 0 < adapter.Until.DurationFromNow now) (n : Nat) :
    Sleep.resume adapter now (n + 1) input = (adapter.Perform now input).result ∧
    (adapter.Perform now input).result =
      { Data := input.Data, Status := RunStatus.PendingSleep,
        ErrorMessage := input.ErrorMessage } := by
  have hn : ¬ adapter.Until.DurationFromNow now ≤ 0 := not_le.mpr h
  have step : ∀ rr : RunResult, (adapter.Perform now rr).result =
      { Data := rr.Data, Status := RunStatus.PendingSleep,
        ErrorMessage := rr.ErrorMessage } := by
    intro rr
    simp [Sleep.Perform, hn]
  refine ⟨?_, step input⟩
  induction n generalizing input with
  | zero => rfl
  | succ k ih =>
    show Sleep.resume adapter now (k + 1) (adapter.Perform now input).result = _
    rw [ih, step, step]

theorem Sleep_Perform_resume_witness :
    0 < (Sleep.mk ⟨10⟩).Until.DurationFromNow ⟨3⟩ ∧
    Sleep.resume (Sleep.mk ⟨10⟩) ⟨3⟩ 4 ⟨JSON.null, RunStatus.InProgress, none⟩ =
      ((Sleep.mk ⟨10⟩).Perform ⟨3⟩ ⟨JSON.null, RunStatus.InProgress, none⟩).result :=
  ⟨by decide,
    (Sleep_Perform_resume (Sleep.mk ⟨10⟩) ⟨3⟩ ⟨JSON.null, RunStatus.InProgress, none⟩
      (by decide) 3).1⟩

/-- C9: when the Until time is in the future, every RunRequest on the RunQueue
because of the call carries as Input the RunResult that `Sleep.Perform`
returned, which is the input's data and error with status PendingSleep; once
the duration has passed that request is the one thing enqueued. -/
theorem Sleep_Perform_request_input (adapter : Sleep) (now : Time) (input : RunResult)
    (h : 0 < adapter.Until.DurationFromNow now) :
    (adapter.Perform now input).spawned =
      [[Action.clockAfter (adapter.Until.DurationFromNow now),
        Action.sendRunQueue { Input := (adapter.Perform now input).result }]] ∧
    (adapter.Perform now input).result =
      { Data := input.Data, Status := RunStatus.PendingSleep,
        ErrorMessage := input.ErrorMessage } ∧
    (∀ elapsed : Duration, adapter.Until.DurationFromNow now ≤ elapsed →
      (adapter.Perform now input).enqueued elapsed =
        [{ Input := { Data := input.Data, Status := RunStatus.PendingSleep,
                      ErrorMessage := input.ErrorMessage } }]) ∧
    (∀ (elapsed : Duration) (req : RunRequest),
      req ∈ (adapter.Perform now input).enqueued elapsed →
        req.Input = (adapter.Perform now input).result) := by
  have hn : ¬ adapter.Until.DurationFromNow now ≤ 0 := not_le.mpr h
  refine ⟨?_, ?_, ?_, ?_⟩
  · simp [Sleep.Perform, hn]
  · simp [Sleep.Perform, hn]
  · intro elapsed he
    simp [Sleep.Perform, hn, Outcome.enqueued, Goroutine.sent, he]
  · intro elapsed req hreq
    by_cases he : adapter.Until.DurationFromNow now ≤ elapsed
    · simp [Sleep.Perform, hn, Outcome.enqueued, Goroutine.sent, he] at hreq
      simp [Sleep.Perform, hn, hreq]
    · simp [Sleep.Perform, hn, Outcome.enqueued, Goroutine.sent, he] at hreq

theorem Sleep_Perform_request_input_witness :
    0 < (Sleep.mk ⟨10⟩).Until.DurationFromNow ⟨3⟩ ∧
    ((Sleep.mk ⟨10⟩).Perform ⟨3⟩ ⟨JSON.null, RunStatus.Errored, none⟩).result =
      { Data := JSON.null, Status := RunStatus.PendingSleep, ErrorMessage := none } :=
  ⟨by decide,
    (Sleep_Perform_request_input (Sleep.mk ⟨10⟩) ⟨3⟩ ⟨JSON.null, RunStatus.Errored, none⟩
      (by decide)).2.1⟩

end Chainlink
